import Mathlib

/-!
Shallow embedding of the `python-spreadsheet` repository
(`src/spreadsheet/classes.py` and `src/spreadsheet/format.py`).

Python strings are modelled as `List Char` (`Str`).  Python exceptions are
modelled by `Except PyError`.  Python object identity — which matters for
`Spreadsheet.get_cells` (a `set` of objects without `__eq__` deduplicates by
identity), for `Spreadsheet.get_cell_id` (an `is`-scan) and for the freshness
of placeholder cells — is modelled by a heap: cells are references (`CellRef`,
a natural number) into an allocation-ordered heap carried by the `Spreadsheet`
state together with an allocation counter `next`.

Recursive loops (`column_id_from_number`, decimal formatting of the row
number, deferred cell evaluation) are written with structural fuel so that
every definition reduces inside the kernel; the fuel is always large enough
on every reachable input, which the lemmas below make precise.
-/

set_option autoImplicit false

/-- Python strings, modelled as lists of characters. -/
abbrev Str := List Char

/-- References to `Cell` objects on the modelled Python heap. -/
abbrev CellRef := Nat

/-- The failure modes of the embedded code.  `valueError` is Python's
`ValueError` (raised by `int(...)` on a non-numeric string and by `max` of an
empty sequence), `indexError` is an out-of-range list subscript,
`cellNotFound` is the `Exception` raised by `Spreadsheet.get_cell_id`,
`outOfBoundsRow`/`outOfBoundsCol` are the two `Exception` raise sites of
`Spreadsheet.get_cell_at_position`, and `stackExhausted` models running out of
call stack (the code has no cycle guard).  `emptyShapeUndefined` is the
explicit error proposed by the specification's error taxonomy; no code path of
the repository raises it.  `invalidRef` marks a dangling heap reference, which
no reachable state produces. -/
inductive PyError where
  | valueError
  | indexError
  | cellNotFound
  | outOfBoundsRow
  | outOfBoundsCol
  | emptyShapeUndefined
  | stackExhausted
  | invalidRef
  deriving DecidableEq, Repr

/-- `string.ascii_uppercase`. -/
def ascii_uppercase : Str := "ABCDEFGHIJKLMNOPQRSTUVWXYZ".toList

/-- The decimal digit characters, used to model Python's integer
formatting and parsing. -/
def decimalDigits : Str := "0123456789".toList

/-- Python string subscript `s[i]` for an in-range index (every subscript in
the source is in range). -/
def pyIndex (l : Str) (i : Nat) : Char :=
  (l.drop i).headD 'A'

/-- Loop body of `column_id_from_number`: while `id > 0`, set
`id, remainder = divmod(id - 1, 26)` and prepend
`string.ascii_uppercase[remainder]`.  Written with structural fuel; the
branch returning `[]` at fuel `0` is unreachable whenever `id ≤ fuel`. -/
def column_id_from_number_fueled : Nat → Nat → Str
  | 0, _ => []
  | f + 1, id =>
      if id = 0 then []
      else
        column_id_from_number_fueled f ((id - 1) / 26) ++
          [pyIndex ascii_uppercase ((id - 1) % 26)]

/-- `column_id_from_number(id)` from the source, for a non-negative argument.
The `while id > 0` loop never executes for `id ≤ 0`. -/
def column_id_from_number_nat (id : Nat) : Str :=
  column_id_from_number_fueled id id

/-- `column_id_from_number(id)` on an arbitrary Python `int`.  For `id ≤ 0`
the loop body never runs and the result is the empty string, which is what
`Int.toNat` yields. -/
def column_id_from_number (id : Int) : Str :=
  column_id_from_number_nat id.toNat

/-- Loop body of `number_from_column_id`: for each character `c`, if
`c in string.ascii_uppercase` then `num = num * 26 + (ord(c.upper()) -
ord("A")) + 1` (for such `c`, `c.upper()` is `c` itself), else `c` is
skipped. -/
def number_from_column_id_loop (num : Nat) : Str → Nat
  | [] => num
  | c :: cs =>
      if c ∈ ascii_uppercase then
        number_from_column_id_loop (num * 26 + (c.toNat - 'A'.toNat) + 1) cs
      else
        number_from_column_id_loop num cs

/-- `number_from_column_id(column_id)` from the source. -/
def number_from_column_id (column_id : Str) : Nat :=
  number_from_column_id_loop 0 column_id

/-- Decimal representation of a natural number, as produced by Python's
f-string formatting.  Structural fuel; unreachable branch at fuel `0` for
`n ≥ 10` (the fuel is always instantiated with `n` itself). -/
def natRepr_fueled : Nat → Nat → Str
  | 0, n => if n < 10 then [pyIndex decimalDigits n] else []
  | f + 1, n =>
      if n < 10 then [pyIndex decimalDigits n]
      else natRepr_fueled f (n / 10) ++ [pyIndex decimalDigits (n % 10)]

/-- Decimal representation of a natural number. -/
def natRepr (n : Nat) : Str :=
  natRepr_fueled n n

/-- Python's formatting of an `int` inside an f-string. -/
def pyIntRepr (i : Int) : Str :=
  if i < 0 then '-' :: natRepr i.natAbs else natRepr i.toNat

/-- One decimal digit of Python's `int(...)` parser. -/
def parseDigit (c : Char) : Option Nat :=
  if '0' ≤ c ∧ c ≤ '9' then some (c.toNat - '0'.toNat) else none

/-- Digit-folding loop of the integer parser. -/
def parseNatLoop (acc : Nat) : Str → Option Nat
  | [] => some acc
  | c :: cs =>
      match parseDigit c with
      | some d => parseNatLoop (acc * 10 + d) cs
      | none => none

/-- Parse an unsigned decimal numeral; `none` models the `ValueError` raised
by Python's `int(...)` on a malformed string. -/
def parseNat (l : Str) : Option Nat :=
  if l = [] then none else parseNatLoop 0 l

/-- Python's `int(s)` on a canonical integer string: an optional minus sign
followed by decimal digits.  (Python additionally strips whitespace and
accepts `+` and `_` separators; no string arising in this repository uses
those forms, so they are not modelled.) -/
def parseInt (l : Str) : Option Int :=
  match l with
  | [] => none
  | c :: cs =>
      if c = '-' then (parseNat cs).map (fun n => -(n : Int))
      else (parseNat l).map (fun n => (n : Int))

/-- Python's `str.split(sep)` for a single-character separator: splits on
every occurrence, keeping empty parts, and always returns at least one
part. -/
def splitOnChar (sep : Char) : Str → List Str
  | [] => [[]]
  | c :: cs =>
      match splitOnChar sep cs with
      | [] => [[]]
      | h :: t => if c = sep then [] :: h :: t else (c :: h) :: t

/-- `format_cell_id(row_id, column_id)`, i.e. the f-string
`"{row_id}_{column_id}"` (braces shown descriptively). -/
def format_cell_id (row_id : Int) (column_id : Str) : Str :=
  pyIntRepr row_id ++ '_' :: column_id

/-- `cell_id_from_position(position)` from the source. -/
def cell_id_from_position (position : Int × Int) : Str :=
  format_cell_id position.1 (column_id_from_number position.2)

/-- `row_number_from_cell_id(cell_id)`: `int(cell_id.split("_")[0])`.
Index `[0]` of a `split` result always exists; `int` can raise
`ValueError`. -/
def row_number_from_cell_id (cell_id : Str) : Except PyError Int :=
  match parseInt ((splitOnChar '_' cell_id).headD []) with
  | some n => .ok n
  | none => .error .valueError

/-- `column_number_from_cell_id(cell_id)`:
`number_from_column_id(cell_id.split("_")[1])`.  Index `[1]` raises
`IndexError` when the key contains no underscore. -/
def column_number_from_cell_id (cell_id : Str) : Except PyError Int :=
  match (splitOnChar '_' cell_id)[1]? with
  | some part => .ok (number_from_column_id part : Nat)
  | none => .error .indexError

/-- `position_from_cell_id(cell_id)`: the pair
`(row_number_from_cell_id(cell_id), column_number_from_cell_id(cell_id))`,
evaluated left to right. -/
def position_from_cell_id (cell_id : Str) : Except PyError (Int × Int) := do
  let r ← row_number_from_cell_id cell_id
  let c ← column_number_from_cell_id cell_id
  return (r, c)

/-- `format.format_align(string, width, alignment)`.  The float expression
`int(math.floor(len(alignment_padding) / 2.0))` is exact natural division for
every list length representable here and is modelled as `Nat` division. -/
def format_align (s : Str) (width : Int) (alignment : Str) : Str :=
  let alignment_padding : Str :=
    List.replicate (max (width - (s.length : Int)) 0).toNat ' '
  if alignment = "left".toList then s ++ alignment_padding
  else if alignment = "right".toList then alignment_padding ++ s
  else if alignment = "center".toList then
    let center_alignment_padding : Str :=
      List.replicate (alignment_padding.length / 2) ' '
    center_alignment_padding ++ s ++ center_alignment_padding ++
      List.replicate
        (max ((alignment_padding.length : Int) -
          (center_alignment_padding.length : Int) * 2) 0).toNat ' '
  else s

/-- The resolved (`T_cell_final_value`) and literal stored values of a cell:
a string, an `int`, or `None`.  (Python `float` literals appear nowhere in
the verified behaviour and are not modelled.) -/
inductive Lit where
  | noneV
  | str (s : Str)
  | int (n : Int)
  deriving DecidableEq, Repr

/-- Deferred cell computations (`Callable[[Cell], ...]` stored in `_value`),
defunctionalized to the shape the repository uses: read the relative
neighbour at a fixed offset and return its resolved value (the pattern of
`highlight` and of the specification's deferred-cell scenario). -/
inductive Deferred where
  | neighbourValue (rowOffset colOffset : Int)
  deriving DecidableEq, Repr

/-- A cell's stored `_value`: a literal or a deferred computation. -/
inductive RawValue where
  | lit (v : Lit)
  | fn (d : Deferred)
  deriving DecidableEq, Repr

/-- The data of one `Cell` object: its stored `_value` and the identity of
the `spreadsheet` it back-references.  The remaining attributes
(`format_fn`, `render_fn`, `alignment`) are read only by the rendering
path, which no verified operation exercises, and are omitted. -/
structure Cell where
  raw_value : RawValue
  spreadsheet : Nat
  deriving DecidableEq, Repr

/-- One `Spreadsheet` object together with the fragment of the Python heap
holding its cells: `cells` is the insertion-ordered `dict[str, Cell]` (values
as references), `heap` maps references to cell data in allocation order, and
`next` is the next fresh reference. -/
structure Spreadsheet where
  sheetId : Nat
  cells : List (Str × CellRef)
  heap : List (CellRef × Cell)
  next : CellRef
  deriving DecidableEq, Repr

/-- `Spreadsheet()`: a freshly constructed sheet with an empty cell store. -/
def Spreadsheet.new : Spreadsheet :=
  ⟨0, [], [], 0⟩

/-- Well-formed heap: every allocated reference is below the allocation
counter, so `next` is fresh.  Every state built by the modelled operations
from `Spreadsheet.new` satisfies this. -/
def Spreadsheet.WF (st : Spreadsheet) : Prop :=
  ∀ p ∈ st.heap, p.1 < st.next

instance (st : Spreadsheet) : Decidable st.WF := by
  unfold Spreadsheet.WF; infer_instance

/-- `dict.get`: the value stored under the first (unique) matching key. -/
def dictGet (d : List (Str × CellRef)) (k : Str) : Option CellRef :=
  (d.find? (fun p => decide (p.1 = k))).map Prod.snd

/-- `dict.__setitem__`: overwrite in place when the key is present, else
append, preserving insertion order. -/
def dictSet (d : List (Str × CellRef)) (k : Str) (v : CellRef) :
    List (Str × CellRef) :=
  if d.any (fun p => decide (p.1 = k)) then
    d.map (fun p => if p.1 = k then (k, v) else p)
  else d ++ [(k, v)]

/-- Dereference a cell on the heap. -/
def heapGet (st : Spreadsheet) (r : CellRef) : Option Cell :=
  (st.heap.find? (fun p => decide (p.1 = r))).map Prod.snd

/-- `Cell(value, self)`: allocate a new cell object back-referencing this
sheet, returning its fresh reference and the grown heap. -/
def allocCell (st : Spreadsheet) (rv : RawValue) : CellRef × Spreadsheet :=
  (st.next,
    { st with heap := st.heap ++ [(st.next, ⟨rv, st.sheetId⟩)],
              next := st.next + 1 })

/-- `Spreadsheet.__getitem__`: `self.cells.get(cell_id, Cell(None, self))`.
Python evaluates the default argument eagerly, so a placeholder cell is
allocated on every lookup; it is returned only on a miss and is never
inserted into `cells`. -/
def Spreadsheet.getItem (st : Spreadsheet) (cell_id : Str) :
    CellRef × Spreadsheet :=
  let p := allocCell st (.lit .noneV)
  match dictGet st.cells cell_id with
  | some r => (r, p.2)
  | none => (p.1, p.2)

/-- `Spreadsheet.__setitem__`. -/
def Spreadsheet.setItem (st : Spreadsheet) (cell_id : Str) (r : CellRef) :
    Spreadsheet :=
  { st with cells := dictSet st.cells cell_id r }

/-- An element of the `fill` payload (`T_spreadsheet_value`): a literal to
be wrapped in a fresh `Cell`, or an already-constructed cell object. -/
inductive FillVal where
  | val (v : Lit)
  | cell (r : CellRef)
  deriving DecidableEq, Repr

/-- One assignment step of `Spreadsheet.fill`:
`self.cells[cell_id] = value if isinstance(value, Cell) else Cell(value, self)`. -/
def Spreadsheet.fillCell (st : Spreadsheet) (cell_id : Str) (v : FillVal) :
    Spreadsheet :=
  match v with
  | .cell r => st.setItem cell_id r
  | .val l =>
      let p := allocCell st (.lit l)
      p.2.setItem cell_id p.1

/-- Inner loop of `Spreadsheet.fill`: `zip(column_ids_from_number(len(row)),
row)` pairs the elements of a row with `column_id_from_number(0)`,
`column_id_from_number(1)`, … -/
def Spreadsheet.fillRow (st : Spreadsheet) (row_id : Nat)
    (row : List FillVal) : Spreadsheet :=
  row.enum.foldl
    (fun s cv =>
      s.fillCell (format_cell_id (row_id : Int)
        (column_id_from_number (cv.1 : Int))) cv.2)
    st

/-- `Spreadsheet.fill(data)`. -/
def Spreadsheet.fill (st : Spreadsheet) (data : List (List FillVal)) :
    Spreadsheet :=
  data.enum.foldl (fun s rr => s.fillRow rr.1 rr.2) st

/-- Python's `max` of a list, which raises `ValueError` on an empty
sequence. -/
def pyListMax (l : List Int) : Except PyError Int :=
  match l with
  | [] => .error .valueError
  | x :: xs => .ok (xs.foldl max x)

/-- `Spreadsheet.get_num_rows`:
`max([row_number_from_cell_id(x) for x in self.cells.keys()]) + 1`. -/
def Spreadsheet.get_num_rows (st : Spreadsheet) : Except PyError Int := do
  let rs ← (st.cells.map Prod.fst).mapM row_number_from_cell_id
  let m ← pyListMax rs
  return m + 1

/-- `Spreadsheet.get_num_columns`. -/
def Spreadsheet.get_num_columns (st : Spreadsheet) : Except PyError Int := do
  let cs ← (st.cells.map Prod.fst).mapM column_number_from_cell_id
  let m ← pyListMax cs
  return m + 1

/-- `Spreadsheet.get_shape`. -/
def Spreadsheet.get_shape (st : Spreadsheet) : Except PyError (Int × Int) := do
  let r ← st.get_num_rows
  let c ← st.get_num_columns
  return (r, c)

/-- Python's `range(a, b)` over machine integers. -/
def intRange (a b : Int) : List Int :=
  (List.range (b - a).toNat).map (fun i => a + i)

/-- Sequential `self[...]` lookups, threading the heap (each lookup
allocates an eagerly evaluated default cell). -/
def Spreadsheet.getItemList (st : Spreadsheet) (ids : List Str) :
    List CellRef × Spreadsheet :=
  ids.foldl
    (fun acc cid =>
      let p := acc.2.getItem cid
      (acc.1 ++ [p.1], p.2))
    ([], st)

/-- The nested comprehension shared by `get_rows` and `get_columns`:
for each outer index, look up `self[key outer inner]` for every inner
index. -/
def Spreadsheet.getGrid (st : Spreadsheet) (outer inner : List Int)
    (key : Int → Int → Str) : List (List CellRef) × Spreadsheet :=
  outer.foldl
    (fun acc o =>
      let p := acc.2.getItemList (inner.map (fun i => key o i))
      (acc.1 ++ [p.1], p.2))
    ([], st)

/-- `Spreadsheet.get_rows`.  The source re-evaluates `get_num_columns()`
once per row; it reads only the key set, which the lookups never change, so
a single evaluation is equivalent. -/
def Spreadsheet.get_rows (st : Spreadsheet) :
    Except PyError (List (List CellRef) × Spreadsheet) := do
  let nr ← st.get_num_rows
  let nc ← st.get_num_columns
  return st.getGrid (intRange 0 nr) (intRange 0 nc)
    (fun y x => format_cell_id y (column_id_from_number x))

/-- `Spreadsheet.get_columns`. -/
def Spreadsheet.get_columns (st : Spreadsheet) :
    Except PyError (List (List CellRef) × Spreadsheet) := do
  let nc ← st.get_num_columns
  let nr ← st.get_num_rows
  return st.getGrid (intRange 0 nc) (intRange 0 nr)
    (fun x y => format_cell_id y (column_id_from_number x))

/-- `Spreadsheet.get_cell_id(cell)`: linear scan of `self.cells.items()`
for the first entry whose value `is` the given cell, raising when the scan
finds none. -/
def Spreadsheet.get_cell_id (st : Spreadsheet) (cell : CellRef) :
    Except PyError Str :=
  match st.cells.find? (fun p => decide (p.2 = cell)) with
  | some p => .ok p.1
  | none => .error .cellNotFound

/-- `Spreadsheet.get_cell_at_position(position)`: raises on a negative row,
then on a negative column, then performs the placeholder-synthesizing
lookup. -/
def Spreadsheet.get_cell_at_position (st : Spreadsheet)
    (position : Int × Int) : Except PyError (CellRef × Spreadsheet) :=
  if position.1 < 0 then .error .outOfBoundsRow
  else if position.2 < 0 then .error .outOfBoundsCol
  else .ok (st.getItem (cell_id_from_position position))

/-- A `Selection`: its list of rectangular bounds. -/
structure Selection where
  bounds : List ((Int × Int) × (Int × Int))
  deriving DecidableEq, Repr

/-- `Selection(start, stop)`. -/
def Selection.mkStartStop (start stop : Int × Int) : Selection :=
  ⟨[(start, stop)]⟩

/-- `Selection.__add__`: concatenation of bound lists. -/
def Selection.add (a b : Selection) : Selection :=
  ⟨a.bounds ++ b.bounds⟩

/-- The positions visited by `Spreadsheet.get_cells`, in loop order: for
each bound, rows then columns, each range half-open. -/
def Selection.positions (sel : Selection) : List (Int × Int) :=
  (sel.bounds.map
    (fun b =>
      ((intRange b.1.1 b.2.1).map
        (fun row => (intRange b.1.2 b.2.2).map (fun col => (row, col)))).flatten)).flatten

/-- `set.add` on a set of objects without `__eq__`/`__hash__`: membership is
object identity, i.e. reference equality. -/
def idSetAdd (s : List CellRef) (r : CellRef) : List CellRef :=
  if r ∈ s then s else s ++ [r]

/-- Loop of `Spreadsheet.get_cells`: look up every position of the
selection, adding each result to an identity-based set; a raise anywhere
aborts the whole call. -/
def Spreadsheet.get_cells_loop (st : Spreadsheet) (acc : List CellRef) :
    List (Int × Int) → Except PyError (List CellRef × Spreadsheet)
  | [] => .ok (acc, st)
  | p :: ps =>
      match st.get_cell_at_position p with
      | .error e => .error e
      | .ok q => Spreadsheet.get_cells_loop q.2 (idSetAdd acc q.1) ps

/-- `Spreadsheet.get_cells(selection)`. -/
def Spreadsheet.get_cells (st : Spreadsheet) (selection : Selection) :
    Except PyError (List CellRef × Spreadsheet) :=
  st.get_cells_loop [] selection.positions

/-- `Cell.get_position`: `position_from_cell_id(self.get_cell_id())`. -/
def Spreadsheet.cellPosition (st : Spreadsheet) (cell : CellRef) :
    Except PyError (Int × Int) := do
  let cid ← st.get_cell_id cell
  position_from_cell_id cid

/-- `Cell.get_relative_neighbour(offset)`: resolve the cell's own position,
add the offsets, and look the result up in the owning sheet. -/
def Spreadsheet.get_relative_neighbour (st : Spreadsheet) (cell : CellRef)
    (offset : Int × Int) : Except PyError (CellRef × Spreadsheet) := do
  let pos ← st.cellPosition cell
  st.get_cell_at_position (pos.1 + offset.1, pos.2 + offset.2)

/-- The `Cell.value` property: a literal `_value` is returned as is (also
`None`); a callable `_value` is re-invoked with the cell itself as argument
on every read.  The fuel bounds the call stack of the unguarded recursion;
every scenario below needs depth at most 2. -/
def Spreadsheet.cellValue (st : Spreadsheet) (cell : CellRef) :
    Nat → Except PyError (Lit × Spreadsheet)
  | 0 => .error .stackExhausted
  | fuel + 1 =>
      match heapGet st cell with
      | none => .error .invalidRef
      | some c =>
          match c.raw_value with
          | .lit v => .ok (v, st)
          | .fn (.neighbourValue dr dc) =>
              match st.get_relative_neighbour cell (dr, dc) with
              | .error e => .error e
              | .ok q => Spreadsheet.cellValue q.2 q.1 fuel

/-- In-place mutation `cell._value = rv` of one cell object on the heap. -/
def Spreadsheet.setRawValue (st : Spreadsheet) (cell : CellRef)
    (rv : RawValue) : Spreadsheet :=
  { st with
      heap := st.heap.map
        (fun p => if p.1 = cell then (p.1, { p.2 with raw_value := rv }) else p) }
/-! ### Lemmas about the column-letter codec -/

theorem number_from_column_id_loop_append (l1 l2 : Str) (acc : Nat) :
    number_from_column_id_loop acc (l1 ++ l2) =
      number_from_column_id_loop (number_from_column_id_loop acc l1) l2 := by
  induction l1 generalizing acc with
  | nil => rfl
  | cons c cs ih =>
      by_cases h : c ∈ ascii_uppercase
      · simp only [List.cons_append, number_from_column_id_loop, if_pos h]
        exact ih _
      · simp only [List.cons_append, number_from_column_id_loop, if_neg h]
        exact ih _

theorem ascii_uppercase_pyIndex_facts :
    ∀ r : Nat, r < 26 →
      pyIndex ascii_uppercase r ∈ ascii_uppercase ∧
      (pyIndex ascii_uppercase r).toNat = 65 + r ∧
      pyIndex ascii_uppercase r ≠ '_' := by decide

theorem ascii_uppercase_no_underscore : ∀ c ∈ ascii_uppercase, c ≠ '_' := by
  decide

theorem number_from_column_id_fueled (f : Nat) :
    ∀ id acc : Nat, id ≤ f →
      number_from_column_id_loop acc (column_id_from_number_fueled f id) =
        acc * 26 ^ (column_id_from_number_fueled f id).length + id := by
  induction f with
  | zero =>
      intro id acc h
      have h0 : id = 0 := by omega
      subst h0
      simp [column_id_from_number_fueled, number_from_column_id_loop]
  | succ f ih =>
      intro id acc h
      by_cases h0 : id = 0
      · subst h0
        simp [column_id_from_number_fueled, number_from_column_id_loop]
      · have hq : (id - 1) / 26 ≤ f := by
          have := Nat.div_le_self (id - 1) 26
          omega
        have hr : (id - 1) % 26 < 26 := Nat.mod_lt _ (by omega)
        obtain ⟨hmem, htoNat, -⟩ := ascii_uppercase_pyIndex_facts _ hr
        simp only [column_id_from_number_fueled, if_neg h0]
        rw [number_from_column_id_loop_append, ih _ _ hq]
        simp only [number_from_column_id_loop, if_pos hmem,
          List.length_append, List.length_cons, List.length_nil, htoNat]
        have hA : 'A'.toNat = 65 := by decide
        rw [hA, pow_succ, ← mul_assoc]
        have hdm : 26 * ((id - 1) / 26) + (id - 1) % 26 = id - 1 :=
          Nat.div_add_mod (id - 1) 26
        generalize acc * 26 ^ (column_id_from_number_fueled f ((id - 1) / 26)).length = m
        omega

theorem number_from_column_id_roundtrip (id : Nat) :
    number_from_column_id (column_id_from_number_nat id) = id := by
  unfold number_from_column_id column_id_from_number_nat
  rw [number_from_column_id_fueled id id 0 (le_refl id)]
  simp

theorem column_id_from_number_fueled_mem :
    ∀ (f id : Nat) (c : Char),
      c ∈ column_id_from_number_fueled f id → c ∈ ascii_uppercase := by
  intro f
  induction f with
  | zero =>
      intro id c hc
      simp [column_id_from_number_fueled] at hc
  | succ f ih =>
      intro id c hc
      by_cases h : id = 0
      · simp [column_id_from_number_fueled, h] at hc
      · simp only [column_id_from_number_fueled, if_neg h, List.mem_append,
          List.mem_singleton] at hc
        rcases hc with hc | hc
        · exact ih _ _ hc
        · subst hc
          exact (ascii_uppercase_pyIndex_facts _ (Nat.mod_lt _ (by omega))).1

theorem column_id_no_underscore (id : Nat) :
    '_' ∉ column_id_from_number_nat id := by
  intro h
  exact ascii_uppercase_no_underscore _
    (column_id_from_number_fueled_mem id id '_' h) rfl

/-! ### Lemmas about decimal formatting and parsing -/

theorem parseNatLoop_append (l1 l2 : Str) (acc : Nat) :
    parseNatLoop acc (l1 ++ l2) =
      match parseNatLoop acc l1 with
      | some a => parseNatLoop a l2
      | none => none := by
  induction l1 generalizing acc with
  | nil => rfl
  | cons c cs ih =>
      simp only [List.cons_append, parseNatLoop]
      cases parseDigit c with
      | some d => exact ih _
      | none => rfl

theorem decimalDigits_pyIndex_facts :
    ∀ d : Nat, d < 10 →
      parseDigit (pyIndex decimalDigits d) = some d ∧
      pyIndex decimalDigits d ∈ decimalDigits := by decide

theorem decimalDigits_not_special :
    ∀ c ∈ decimalDigits, c ≠ '_' ∧ c ≠ '-' := by decide

theorem parseNatLoop_natRepr_fueled (f : Nat) :
    ∀ n acc : Nat, n ≤ f →
      parseNatLoop acc (natRepr_fueled f n) =
        some (acc * 10 ^ (natRepr_fueled f n).length + n) := by
  induction f with
  | zero =>
      intro n acc h
      have h0 : n = 0 := by omega
      subst h0
      have hp := (decimalDigits_pyIndex_facts 0 (by omega)).1
      simp [natRepr_fueled, parseNatLoop, hp]
  | succ f ih =>
      intro n acc h
      by_cases hn : n < 10
      · obtain ⟨hp, -⟩ := decimalDigits_pyIndex_facts n hn
        simp [natRepr_fueled, hn, parseNatLoop, hp]
      · have hlt : n / 10 < n := Nat.div_lt_self (by omega) (by omega)
        have hq : n / 10 ≤ f := by omega
        have hr : n % 10 < 10 := Nat.mod_lt _ (by omega)
        obtain ⟨hp, -⟩ := decimalDigits_pyIndex_facts _ hr
        simp only [natRepr_fueled, if_neg hn]
        rw [parseNatLoop_append, ih _ _ hq]
        simp only [parseNatLoop, hp, List.length_append, List.length_cons,
          List.length_nil]
        rw [pow_succ, ← mul_assoc]
        have hdm : 10 * (n / 10) + n % 10 = n := Nat.div_add_mod n 10
        generalize acc * 10 ^ (natRepr_fueled f (n / 10)).length = m
        exact congrArg some (by omega)

theorem natRepr_fueled_mem :
    ∀ (f n : Nat) (c : Char),
      c ∈ natRepr_fueled f n → c ∈ decimalDigits := by
  intro f
  induction f with
  | zero =>
      intro n c hc
      by_cases h : n < 10 <;> simp [natRepr_fueled, h] at hc
      subst hc
      exact (decimalDigits_pyIndex_facts n h).2
  | succ f ih =>
      intro n c hc
      by_cases h : n < 10
      · simp [natRepr_fueled, h] at hc
        subst hc
        exact (decimalDigits_pyIndex_facts n h).2
      · simp only [natRepr_fueled, if_neg h, List.mem_append,
          List.mem_singleton] at hc
        rcases hc with hc | hc
        · exact ih _ _ hc
        · subst hc
          exact (decimalDigits_pyIndex_facts _ (Nat.mod_lt _ (by omega))).2

theorem natRepr_fueled_ne_nil (f n : Nat) (h : n ≤ f) :
    natRepr_fueled f n ≠ [] := by
  cases f with
  | zero =>
      have h0 : n = 0 := by omega
      subst h0
      simp [natRepr_fueled]
  | succ f => by_cases hn : n < 10 <;> simp [natRepr_fueled, hn]

theorem natRepr_no_underscore (n : Nat) : '_' ∉ natRepr n := by
  intro h
  exact (decimalDigits_not_special _ (natRepr_fueled_mem n n '_' h)).1 rfl

theorem parseNat_natRepr (n : Nat) : parseNat (natRepr n) = some n := by
  unfold parseNat natRepr
  rw [if_neg (by simpa using natRepr_fueled_ne_nil n n (le_refl n))]
  rw [parseNatLoop_natRepr_fueled n n 0 (le_refl n)]
  simp

theorem parseInt_natRepr (n : Nat) : parseInt (natRepr n) = some (n : Int) := by
  have hne : natRepr n ≠ [] := natRepr_fueled_ne_nil n n (le_refl n)
  have hpn : parseNat (natRepr n) = some n := parseNat_natRepr n
  cases hrep : natRepr n with
  | nil => exact absurd hrep hne
  | cons c cs =>
      have hc : c ∈ decimalDigits := by
        apply natRepr_fueled_mem n n
        show c ∈ natRepr_fueled n n
        rw [show natRepr_fueled n n = natRepr n from rfl, hrep]
        exact List.mem_cons_self _ _
      have hcm : c ≠ '-' := (decimalDigits_not_special _ hc).2
      simp only [parseInt, if_neg hcm]
      rw [← hrep, hpn]
      rfl

/-! ### Lemmas about key splitting -/

theorem splitOnChar_cons (sep c : Char) (cs : Str) :
    splitOnChar sep (c :: cs) =
      match splitOnChar sep cs with
      | [] => [[]]
      | h :: t => if c = sep then [] :: h :: t else (c :: h) :: t := rfl

theorem splitOnChar_ne_nil (sep : Char) (l : Str) : splitOnChar sep l ≠ [] := by
  cases l with
  | nil => simp [splitOnChar]
  | cons c cs =>
      rw [splitOnChar_cons]
      cases hs : splitOnChar sep cs with
      | nil => simp
      | cons hh tt => by_cases hc : c = sep <;> simp [hc]

theorem splitOnChar_no_sep (sep : Char) (l : Str) (h : sep ∉ l) :
    splitOnChar sep l = [l] := by
  induction l with
  | nil => rfl
  | cons c cs ih =>
      have hc : c ≠ sep := fun e => h (e ▸ List.mem_cons_self c cs)
      have hcs : sep ∉ cs := fun m => h (List.mem_cons_of_mem _ m)
      rw [splitOnChar_cons, ih hcs]
      simp [hc]

theorem splitOnChar_append (sep : Char) (a b : Str) (h : sep ∉ a) :
    splitOnChar sep (a ++ sep :: b) = a :: splitOnChar sep b := by
  induction a with
  | nil =>
      rw [List.nil_append, splitOnChar_cons]
      cases hs : splitOnChar sep b with
      | nil => exact absurd hs (splitOnChar_ne_nil sep b)
      | cons hh tt => simp
  | cons c cs ih =>
      have hc : c ≠ sep := fun e => h (e ▸ List.mem_cons_self c cs)
      have hcs : sep ∉ cs := fun m => h (List.mem_cons_of_mem _ m)
      rw [List.cons_append, splitOnChar_cons, ih hcs]
      simp [hc]

/-! ### The cell-key round trip -/

theorem except_bind_ok {α β : Type} (x : α) (f : α → Except PyError β) :
    (Except.ok x >>= f) = f x := rfl

theorem cell_id_from_position_eq (r c : Nat) :
    cell_id_from_position ((r : Int), (c : Int)) =
      natRepr r ++ '_' :: column_id_from_number_nat c := by
  unfold cell_id_from_position format_cell_id column_id_from_number pyIntRepr
  rw [if_neg (by omega : ¬((r : Int) < 0))]
  simp

theorem position_from_cell_id_roundtrip (r c : Nat) :
    position_from_cell_id (cell_id_from_position ((r : Int), (c : Int))) =
      .ok ((r : Int), (c : Int)) := by
  have hkey := cell_id_from_position_eq r c
  have hsplit : splitOnChar '_' (natRepr r ++ '_' :: column_id_from_number_nat c) =
      [natRepr r, column_id_from_number_nat c] := by
    rw [splitOnChar_append _ _ _ (natRepr_no_underscore r),
      splitOnChar_no_sep _ _ (column_id_no_underscore c)]
  have hrow : row_number_from_cell_id
      (cell_id_from_position ((r : Int), (c : Int))) = .ok (r : Int) := by
    unfold row_number_from_cell_id
    rw [hkey, hsplit]
    simp [parseInt_natRepr]
  have hcol : column_number_from_cell_id
      (cell_id_from_position ((r : Int), (c : Int))) = .ok (c : Int) := by
    unfold column_number_from_cell_id
    rw [hkey, hsplit]
    simp [number_from_column_id_roundtrip]
  unfold position_from_cell_id
  rw [hrow, except_bind_ok, hcol, except_bind_ok]
  rfl

instance {ε α : Type} [DecidableEq ε] [DecidableEq α] :
    DecidableEq (Except ε α) := fun x y =>
  match x, y with
  | .ok a, .ok b =>
      decidable_of_iff (a = b) ⟨fun h => congrArg Except.ok h, Except.ok.inj⟩
  | .error a, .error b =>
      decidable_of_iff (a = b)
        ⟨fun h => congrArg Except.error h, Except.error.inj⟩
  | .ok _, .error _ => isFalse fun h => Except.noConfusion h
  | .error _, .ok _ => isFalse fun h => Except.noConfusion h

/-! ### Claims about the address codec -/

/-- Claim C1: for every row `r ≥ 0` and column number `c ≥ 1`, decoding the
encoded column letters gives back `c`, and decoding the encoded cell key
gives back the pair `(r, c)`. -/
theorem C1_codec_roundtrip (r c : Nat) (h : 1 ≤ c) :
    number_from_column_id (column_id_from_number (c : Int)) = c ∧
    position_from_cell_id (cell_id_from_position ((r : Int), (c : Int))) =
      .ok ((r : Int), (c : Int)) := by
  refine ⟨?_, position_from_cell_id_roundtrip r c⟩
  unfold column_id_from_number
  rw [Int.toNat_natCast]
  exact number_from_column_id_roundtrip c

theorem C1_codec_roundtrip_witness :
    1 ≤ 1 ∧
    (number_from_column_id (column_id_from_number ((1 : Nat) : Int)) = 1 ∧
     position_from_cell_id
         (cell_id_from_position (((0 : Nat) : Int), ((1 : Nat) : Int))) =
       .ok (((0 : Nat) : Int), ((1 : Nat) : Int))) :=
  ⟨le_refl 1, C1_codec_roundtrip 0 1 (le_refl 1)⟩

/-- Claim C10: the cell-key round trip also holds at column 0: for every row
`r ≥ 0`, the key is the row's digits followed by a bare underscore (the
column-letter part is empty), decoding the empty letter string yields 0, and
decoding the key returns exactly `(r, 0)`. -/
theorem C10_column_zero_roundtrip (r : Nat) :
    cell_id_from_position ((r : Int), 0) = natRepr r ++ ['_'] ∧
    number_from_column_id [] = 0 ∧
    position_from_cell_id (cell_id_from_position ((r : Int), 0)) =
      .ok ((r : Int), 0) := by
  refine ⟨?_, rfl, ?_⟩
  · have h := cell_id_from_position_eq r 0
    simpa [column_id_from_number_nat, column_id_from_number_fueled] using h
  · simpa using position_from_cell_id_roundtrip r 0

/-- Claim C2, counterexample to case-insensitivity: the decoder's membership
guard `c in string.ascii_uppercase` skips lowercase letters entirely, so
decoding the lowercase string differs from decoding its uppercase form at the
concrete input pair `a` versus `A`. -/
theorem C2_counterexample_lowercase_not_uppercase :
    number_from_column_id ['a'] = 0 ∧
    number_from_column_id ['A'] = 1 ∧
    number_from_column_id ['a'] ≠ number_from_column_id ['A'] := by decide

theorem number_from_column_id_loop_filter (l : Str) (acc : Nat) :
    number_from_column_id_loop acc l =
      (l.filter (fun c => decide (c ∈ ascii_uppercase))).foldl
        (fun num c => num * 26 + (c.toNat - 'A'.toNat) + 1) acc := by
  induction l generalizing acc with
  | nil => rfl
  | cons c cs ih =>
      by_cases h : c ∈ ascii_uppercase
      · have hf : (c :: cs).filter (fun x => decide (x ∈ ascii_uppercase)) =
            c :: cs.filter (fun x => decide (x ∈ ascii_uppercase)) := by
          simp [h]
        rw [hf, List.foldl_cons]
        simp only [number_from_column_id_loop, if_pos h]
        exact ih _
      · have hf : (c :: cs).filter (fun x => decide (x ∈ ascii_uppercase)) =
            cs.filter (fun x => decide (x ∈ ascii_uppercase)) := by
          simp [h]
        rw [hf]
        simp only [number_from_column_id_loop, if_neg h]
        exact ih _

/-- Claim C2 (amended): the decoder folds left to right as
`acc = acc * 26 + (letter index + 1)` over exactly the uppercase characters
A to Z of its input and ignores every other character — including lowercase
letters, which contribute nothing (the decoder is case-sensitive, not
case-insensitive). -/
theorem C2_decoder_folds_uppercase_only (l : Str) :
    number_from_column_id l =
      (l.filter (fun c => decide (c ∈ ascii_uppercase))).foldl
        (fun num c => num * 26 + (c.toNat - 'A'.toNat) + 1) 0 :=
  number_from_column_id_loop_filter l 0

/-! ### Claims about the empty-sheet shape -/

/-- Claim C3, counterexample: `get_num_rows` on a freshly constructed
spreadsheet with zero cells crashes on the unguarded `max` over an empty
sequence (Python's built-in `ValueError`); it does not raise an explicit
`EmptyShapeUndefined`-style error. -/
theorem C3_counterexample_unguarded_max :
    Spreadsheet.new.get_num_rows = .error PyError.valueError ∧
    Spreadsheet.new.get_num_rows ≠ .error PyError.emptyShapeUndefined ∧
    Spreadsheet.new.get_num_columns = .error PyError.valueError ∧
    Spreadsheet.new.get_num_columns ≠ .error PyError.emptyShapeUndefined := by
  decide

/-- Claim C3 (amended): calling `get_num_rows` (or `get_num_columns`) on a
freshly constructed spreadsheet with zero cells raises the built-in
`ValueError` of an unguarded `max` over an empty sequence, not an explicit
`EmptyShapeUndefined`-style error. -/
theorem C3_empty_sheet_value_error :
    Spreadsheet.new.get_num_rows = .error PyError.valueError ∧
    Spreadsheet.new.get_num_columns = .error PyError.valueError := by decide

/-! ### Claim about text alignment -/

/-- Claim C9: `format_align "ab" 5 "right"` returns `"   ab"`,
`format_align "ab" 5 "center"` returns a width-5 string with one space of
left padding and two of right padding, and in general center alignment puts
`padding / 2` spaces on the left and the rest — including the odd
remainder — on the right. -/
theorem C9_format_align (s : Str) (width : Int) :
    format_align ("ab".toList) 5 ("right".toList) = ("   ab".toList) ∧
    format_align ("ab".toList) 5 ("center".toList) = (" ab  ".toList) ∧
    format_align s width ("center".toList) =
      List.replicate ((max (width - (s.length : Int)) 0).toNat / 2) ' ' ++ s ++
        List.replicate ((max (width - (s.length : Int)) 0).toNat -
          (max (width - (s.length : Int)) 0).toNat / 2) ' ' := by
  refine ⟨by decide, by decide, ?_⟩
  have hL : ¬("center".toList = "left".toList) := by decide
  have hR : ¬("center".toList = "right".toList) := by decide
  simp only [format_align, if_neg hL, if_neg hR, if_pos rfl, if_true,
    eq_self_iff_true, List.length_replicate]
  generalize (max (width - (s.length : Int)) 0).toNat = p
  have he : (max ((p : Int) - ((p / 2 : Nat) : Int) * 2) 0).toNat =
      p - 2 * (p / 2) := by omega
  rw [he, List.append_assoc (List.replicate (p / 2) ' ' ++ s)]
  rw [show List.replicate (p / 2) ' ' ++ List.replicate (p - 2 * (p / 2)) ' ' =
      List.replicate (p - p / 2) ' ' from by
    rw [← List.replicate_add]
    exact congrArg (fun n => List.replicate n ' ') (by omega)]

/-! ### Heap lemmas -/

theorem find?_append_of_none {α : Type} (p : α → Bool) (l1 l2 : List α)
    (h : l1.find? p = none) : (l1 ++ l2).find? p = l2.find? p := by
  induction l1 with
  | nil => rfl
  | cons x xs ih =>
      rw [List.cons_append]
      rw [List.find?_cons] at h ⊢
      cases hp : p x with
      | true => simp [hp] at h
      | false =>
          simp only [hp] at h ⊢
          exact ih h

theorem find?_append_of_some {α : Type} (p : α → Bool) (l1 l2 : List α)
    (x : α) (h : l1.find? p = some x) : (l1 ++ l2).find? p = some x := by
  induction l1 with
  | nil => exact absurd h (by simp)
  | cons y ys ih =>
      rw [List.find?_cons] at h
      rw [List.cons_append, List.find?_cons]
      cases hp : p y with
      | true => rw [hp] at h; exact h
      | false => rw [hp] at h; exact ih h

theorem heapGet_next_none (st : Spreadsheet) (hwf : st.WF) :
    heapGet st st.next = none := by
  unfold heapGet
  have hfind : st.heap.find? (fun p => decide (p.1 = st.next)) = none := by
    apply List.find?_eq_none.mpr
    intro x hx
    have hlt := hwf x hx
    intro hc
    have hx1 : x.1 = st.next := of_decide_eq_true hc
    exact absurd hx1 (Nat.ne_of_lt hlt)
  rw [hfind]
  rfl

/-! ### Claim C4: read-miss synthesizes a fresh placeholder, no mutation -/

/-- Claim C4: looking up a key absent from the cell store returns a fresh
empty placeholder cell (raw value `None`, back-reference to this sheet)
without raising, the placeholder is not inserted, and both the set of stored
keys and every stored cell are unchanged by the read-miss. -/
theorem C4_read_miss_fresh_placeholder (st : Spreadsheet) (k : Str)
    (hwf : st.WF) (hmiss : dictGet st.cells k = none) :
    heapGet st (st.getItem k).1 = none ∧
    heapGet (st.getItem k).2 (st.getItem k).1 =
      some ⟨RawValue.lit Lit.noneV, st.sheetId⟩ ∧
    (st.getItem k).2.cells = st.cells ∧
    (∀ (r : CellRef) (cd : Cell), heapGet st r = some cd →
      heapGet (st.getItem k).2 r = some cd) := by
  have hfst : (st.getItem k).1 = st.next := by
    unfold Spreadsheet.getItem allocCell
    rw [hmiss]
  have hsnd : (st.getItem k).2 =
      { st with heap := st.heap ++ [(st.next, ⟨RawValue.lit Lit.noneV, st.sheetId⟩)],
                next := st.next + 1 } := by
    unfold Spreadsheet.getItem allocCell
    rw [hmiss]
  have hnone : heapGet st st.next = none := heapGet_next_none st hwf
  refine ⟨?_, ?_, ?_, ?_⟩
  · rw [hfst]; exact hnone
  · rw [hfst, hsnd]
    unfold heapGet at hnone ⊢
    simp only
    rw [find?_append_of_none _ _ _ (by
      cases hfind : st.heap.find? (fun p => decide (p.1 = st.next)) with
      | none => rfl
      | some q => rw [hfind] at hnone; exact absurd hnone (by simp))]
    simp [List.find?_cons]
  · rw [hsnd]
  · intro r cd hr
    rw [hsnd]
    unfold heapGet at hr ⊢
    simp only
    obtain ⟨q, hq, hq2⟩ := Option.map_eq_some'.mp hr
    rw [find?_append_of_some _ _ _ _ hq]
    simp [hq2]

theorem C4_read_miss_fresh_placeholder_witness :
    Spreadsheet.new.WF ∧ dictGet Spreadsheet.new.cells [] = none ∧
    (heapGet Spreadsheet.new (Spreadsheet.new.getItem []).1 = none ∧
     heapGet (Spreadsheet.new.getItem []).2 (Spreadsheet.new.getItem []).1 =
       some ⟨RawValue.lit Lit.noneV, Spreadsheet.new.sheetId⟩ ∧
     (Spreadsheet.new.getItem []).2.cells = Spreadsheet.new.cells ∧
     (∀ (r : CellRef) (cd : Cell), heapGet Spreadsheet.new r = some cd →
       heapGet (Spreadsheet.new.getItem []).2 r = some cd)) :=
  ⟨by decide, rfl,
    C4_read_miss_fresh_placeholder Spreadsheet.new [] (by decide) rfl⟩

/-! ### Claim C6: relative neighbour and bounds errors -/

/-- Claim C6: for a cell present in its owning sheet (its identity scan
yields a key whose decoded position is `(row, col)`) and any offset
`(dr, dc)`, `get_relative_neighbour` returns the sheet's cell at
`(row + dr, col + dc)` — synthesizing an empty placeholder when that key is
absent — whenever both coordinates are non-negative, and raises one of the
two out-of-bounds errors exactly when the resulting row or column is
negative. -/
theorem C6_relative_neighbour (st : Spreadsheet) (cell : CellRef) (k : Str)
    (row col dr dc : Int)
    (hcid : st.get_cell_id cell = .ok k)
    (hpos : position_from_cell_id k = .ok (row, col)) :
    (0 ≤ row + dr → 0 ≤ col + dc →
      st.get_relative_neighbour cell (dr, dc) =
        .ok (st.getItem (cell_id_from_position (row + dr, col + dc)))) ∧
    ((st.get_relative_neighbour cell (dr, dc) = .error PyError.outOfBoundsRow ∨
      st.get_relative_neighbour cell (dr, dc) = .error PyError.outOfBoundsCol) ↔
      (row + dr < 0 ∨ col + dc < 0)) := by
  have hn : st.get_relative_neighbour cell (dr, dc) =
      st.get_cell_at_position (row + dr, col + dc) := by
    unfold Spreadsheet.get_relative_neighbour Spreadsheet.cellPosition
    rw [bind_assoc, hcid, except_bind_ok, hpos, except_bind_ok]
  constructor
  · intro h1 h2
    rw [hn]
    unfold Spreadsheet.get_cell_at_position
    rw [if_neg (by simpa using not_lt.mpr h1), if_neg (by simpa using not_lt.mpr h2)]
  · rw [hn]
    unfold Spreadsheet.get_cell_at_position
    by_cases h1 : row + dr < 0
    · simp only [if_pos h1]
      constructor
      · intro _; exact Or.inl h1
      · intro _; exact Or.inl (by simp)
    · simp only [if_neg h1]
      by_cases h2 : col + dc < 0
      · simp only [if_pos h2]
        constructor
        · intro _; exact Or.inr h2
        · intro _; exact Or.inr (by simp)
      · simp only [if_neg h2]
        constructor
        · rintro (h | h) <;> exact absurd h (by simp)
        · rintro (h | h) <;> [exact absurd h h1; exact absurd h h2]

/-- A one-cell sheet used to witness claim C6. -/
def sheetOne : Spreadsheet :=
  Spreadsheet.new.fill [[.val (.str ['a'])]]

theorem C6_relative_neighbour_witness :
    sheetOne.get_cell_id 0 = .ok ['0', '_'] ∧
    position_from_cell_id ['0', '_'] = .ok (0, 0) ∧
    ((0 ≤ (0 : Int) + 0 → 0 ≤ (0 : Int) + 1 →
      sheetOne.get_relative_neighbour 0 (0, 1) =
        .ok (sheetOne.getItem (cell_id_from_position ((0 : Int) + 0, (0 : Int) + 1)))) ∧
     ((sheetOne.get_relative_neighbour 0 (0, 1) = .error PyError.outOfBoundsRow ∨
       sheetOne.get_relative_neighbour 0 (0, 1) = .error PyError.outOfBoundsCol) ↔
       ((0 : Int) + 0 < 0 ∨ (0 : Int) + 1 < 0))) :=
  ⟨by decide, by decide,
    C6_relative_neighbour sheetOne 0 ['0', '_'] 0 0 0 1 (by decide) (by decide)⟩

/-! ### Claim C5: identity-based selection resolution -/

/-- The sheet filled from the literal grid of rows `a b` over `c d`, storing
cells at the four positions (0,0), (0,1), (1,0), (1,1). -/
def sheetABCD : Spreadsheet :=
  Spreadsheet.new.fill
    [[.val (.str ['a']), .val (.str ['b'])],
     [.val (.str ['c']), .val (.str ['d'])]]

/-- Claim C5: `get_cells` collects looked-up cells into a set whose
membership criterion is object identity.  Over bound `((0,0),(2,2))` on
`sheetABCD` it returns exactly the 4 stored cells; over bound `((0,0),(3,1))`
it returns a set containing a synthesized empty placeholder for the absent
position (2,0) without raising; and a selection whose bounds cover the same
absent position (5,5) twice yields two distinct placeholder objects with
value-equal data, which are NOT collapsed to one set element. -/
theorem C5_identity_set :
    (sheetABCD.get_cells (Selection.mkStartStop (0, 0) (2, 2))).map
        (fun p => p.1.length) = .ok 4 ∧
    (sheetABCD.get_cells (Selection.mkStartStop (0, 0) (2, 2))).map
        Prod.fst = .ok [0, 1, 2, 3] ∧
    (sheetABCD.get_cells (Selection.mkStartStop (0, 0) (3, 1))).map
        (fun p => p.1.map (fun r => heapGet p.2 r)) =
      .ok [some ⟨RawValue.lit (Lit.str ['a']), 0⟩,
           some ⟨RawValue.lit (Lit.str ['c']), 0⟩,
           some ⟨RawValue.lit Lit.noneV, 0⟩] ∧
    (Spreadsheet.new.get_cells
        ((Selection.mkStartStop (5, 5) (6, 6)).add
          (Selection.mkStartStop (5, 5) (6, 6)))).map
        (fun p => (p.1, p.1.map (fun r => heapGet p.2 r))) =
      .ok ([0, 1],
           [some ⟨RawValue.lit Lit.noneV, 0⟩,
            some ⟨RawValue.lit Lit.noneV, 0⟩]) := by
  refine ⟨by decide, by decide, by decide, by decide⟩

/-! ### Claim C7: no caching of resolved values -/

/-- A deferred cell object created before the sheet is filled, whose
computation reads the relative neighbour at offset (0, 1) and returns its
resolved value. -/
def c7alloc : CellRef × Spreadsheet :=
  allocCell Spreadsheet.new (.fn (.neighbourValue 0 1))

/-- The sheet filled with the deferred cell at position (0,0) and the
literal `1` at its (0,1) neighbour. -/
def c7sheet : Spreadsheet :=
  c7alloc.2.fill [[.cell c7alloc.1, .val (.int 1)]]

/-- The heap state after the first read of the deferred cell's value. -/
def c7afterFirstRead : Spreadsheet :=
  match c7sheet.cellValue c7alloc.1 2 with
  | .ok p => p.2
  | .error _ => c7sheet

/-- The state after mutating the neighbour's stored value from `1` to `2`
(reference 1 is the neighbour cell allocated by `fill`). -/
def c7mutated : Spreadsheet :=
  c7afterFirstRead.setRawValue 1 (.lit (.int 2))

/-- Claim C7: resolved values are never cached — each read of `Cell.value`
on a deferred cell re-invokes the computation against the current state, so
reading the deferred cell, mutating its neighbour's stored value, and
reading again yields two different results reflecting the mutation. -/
theorem C7_no_caching :
    (c7sheet.cellValue c7alloc.1 2).map Prod.fst = .ok (Lit.int 1) ∧
    (c7mutated.cellValue c7alloc.1 2).map Prod.fst = .ok (Lit.int 2) ∧
    (c7sheet.cellValue c7alloc.1 2).map Prod.fst ≠
      (c7mutated.cellValue c7alloc.1 2).map Prod.fst := by
  refine ⟨by decide, by decide, by decide⟩

/-! ### Claim C8: fill, shape, rows and columns -/

/-- The row-major grid of resolved cell values produced by `get_rows`. -/
def rows_resolved (st : Spreadsheet) : Except PyError (List (List Lit)) := do
  let p ← st.get_rows
  p.1.mapM (fun row => row.mapM (fun r => (p.2.cellValue r 1).map Prod.fst))

/-- The column-major grid of resolved cell values produced by
`get_columns`. -/
def columns_resolved (st : Spreadsheet) : Except PyError (List (List Lit)) := do
  let p ← st.get_columns
  p.1.mapM (fun col => col.mapM (fun r => (p.2.cellValue r 1).map Prod.fst))

/-- Claim C8: after filling a fresh sheet with the rows `a b` and `c d`,
`get_shape` returns (2, 2), `get_rows` reproduces the literal grid of
resolved values, and the first entry of `get_columns` resolves to the values
`a` and `c`. -/
theorem C8_fill_shape_rows_columns :
    sheetABCD.get_shape = .ok (2, 2) ∧
    rows_resolved sheetABCD =
      .ok [[Lit.str ['a'], Lit.str ['b']], [Lit.str ['c'], Lit.str ['d']]] ∧
    (columns_resolved sheetABCD).map (fun ls => ls.headD []) =
      .ok [Lit.str ['a'], Lit.str ['c']] := by
  refine ⟨by decide, by decide, by decide⟩
